import Mathlib

/-!
Shallow embedding of the GADM city-name matcher (`src/app.py`).

The core consists of `find_matches` (scan one reference table, optionally
filtered by `GID_0`, scoring every candidate name against the query and
keeping those meeting the threshold) and the batch loop of `main`
(accumulate matches over every (version, level) table and every query,
then sort the accumulated results by query ascending and score
descending).

Tables are modelled as a list of column names plus an ordered list of
records; a record is an association list from column name to string
value, mirroring the dynamic string-keyed row access of the source
(`row[name_col]`, `row.get('GID_0', '')`, `'GID_0' in row`).

The similarity scorer (`fuzz.token_set_ratio` from the external rapidfuzz
library) is not part of this repository; every definition is parametric
in a scorer `score : String → String → Nat`, and claims about the
scorer's range are settled relative to the spec's contract for it.
-/

namespace GadmSearch

/-- One table row: an association list from column name to string value. -/
abbrev Record := List (String × String)

/-- Column access with pandas-`get` semantics: absent key yields `""`
(the source reads `row.get('GID_0', '')`; the required columns are read
only under the column-presence guard). -/
def getCol (row : Record) (k : String) : String :=
  (row.lookup k).getD ""

/-- A reference table for one (version, level) pair: its column list and
its ordered records. -/
structure Table where
  cols : List String
  rows : List Record
deriving DecidableEq, Repr

/-- One emitted match, mirroring the dict built in `find_matches`
(`src/app.py` lines 40–48). Scores are natural numbers, encoding the
"integer in [0,100]" scorer contract's integrality. -/
structure Match where
  query : String
  version : String
  level : Nat
  GID_0 : String
  GID : String
  matched_name : String
  score : Nat
deriving DecidableEq, Repr

/-- One parsed input line of the batch: a query text and an optional
`GID_0` scope (the part after `|`, absent when no `|` occurs). -/
structure Entry where
  query : String
  gid0 : Option String
deriving DecidableEq, Repr

/-- `NAME_{level}` column name (`src/app.py` line 28). -/
def nameCol (level : Nat) : String := "NAME_" ++ toString level

/-- `GID_{level}` column name (`src/app.py` line 29). -/
def gidCol (level : Nat) : String := "GID_" ++ toString level

/-- Python truthiness of the `gid0_filter` argument (`if gid0_filter:`,
`src/app.py` line 34): `None` and the empty string are falsy. -/
def truthy : Option String → Bool
  | none => false
  | some s => s != ""

/-- The body of the per-row loop of `find_matches` (`src/app.py`
lines 32–48): skip the row when the filter is truthy and the row's
`GID_0` is absent or differs from it; otherwise score the row's name
and emit a match when the score meets the threshold. -/
def processRow (score : String → String → Nat) (query : String) (level : Nat)
    (version : String) (threshold : Nat) (gid0_filter : Option String)
    (row : Record) : Option Match :=
  if truthy gid0_filter && row.lookup "GID_0" != gid0_filter then
    none
  else
    let db_name := getCol row (nameCol level)
    let s := score query db_name
    if threshold ≤ s then
      some { query := query, version := version, level := level,
             GID_0 := getCol row "GID_0", GID := getCol row (gidCol level),
             matched_name := db_name, score := s }
    else
      none

/-- `find_matches` (`src/app.py` lines 24–49): when the table has both
required columns, process every record in table order; otherwise return
the empty list. -/
def find_matches (score : String → String → Nat) (query : String) (df : Table)
    (level : Nat) (version : String) (threshold : Nat)
    (gid0_filter : Option String) : List Match :=
  if nameCol level ∈ df.cols ∧ gidCol level ∈ df.cols then
    df.rows.filterMap (processRow score query level version threshold gid0_filter)
  else
    []

/-- The accumulation loop of `main` (`src/app.py` lines 85–90): for every
(version, level) table in the fixed caller-supplied order, for every
entry, append all matches. -/
def accumulate (score : String → String → Nat) (entries : List Entry)
    (tables : List (String × Nat × Table)) (threshold : Nat) : List Match :=
  tables.flatMap fun vt =>
    entries.flatMap fun e =>
      find_matches score e.query vt.2.2 vt.2.1 vt.1 threshold e.gid0

/-- The comparison realised by
`sort_values(["query", "score"], ascending=[True, False])`
(`src/app.py` line 94): query text ascending, then score descending. -/
def matchLE (a b : Match) : Bool :=
  decide (a.query < b.query) || (a.query == b.query && decide (b.score ≤ a.score))

/-- The batch run (`src/app.py` lines 85–94): accumulate, then stable-sort
by query ascending and score descending (pandas sorts on several keys with
a stable lexicographic sort). -/
def run (score : String → String → Nat) (entries : List Entry)
    (tables : List (String × Nat × Table)) (threshold : Nat) : List Match :=
  (accumulate score entries tables threshold).mergeSort matchLE

/-- A simple scorer instance satisfying the spec's SimilarityScorer
contract (integer in [0,100]); used only to instantiate theorems at
concrete inputs, since the real scorer lives outside the repository. -/
def exactScorer (q c : String) : Nat :=
  if q == c then 100 else 0

/-- The reference table of the spec's end-to-end example (§8, item 6):
two level-0 records, USA and MEX. -/
def exTable : Table :=
  { cols := ["GID_0", "NAME_0"],
    rows := [[("GID_0", "USA"), ("NAME_0", "United States of America")],
             [("GID_0", "MEX"), ("NAME_0", "Mexico")]] }

/-- The match that `find_matches` emits for the query "Mexico" against
`exTable` at level 0 under `exactScorer` (at level 0 the `GID` column is
`GID_0` itself). -/
def mexicoMatch : Match :=
  { query := "Mexico", version := "41", level := 0, GID_0 := "MEX",
    GID := "MEX", matched_name := "Mexico", score := 100 }

/-! ### Order lemmas for the sort comparison -/

lemma matchLE_total (a b : Match) : matchLE a b || matchLE b a := by
  simp only [matchLE, Bool.or_eq_true, Bool.and_eq_true, decide_eq_true_eq, beq_iff_eq]
  rcases lt_trichotomy a.query b.query with h | h | h
  · exact Or.inl (Or.inl h)
  · rcases Nat.le_total a.score b.score with hs | hs
    · exact Or.inr (Or.inr ⟨h.symm, hs⟩)
    · exact Or.inl (Or.inr ⟨h, hs⟩)
  · exact Or.inr (Or.inl h)

lemma matchLE_trans (a b c : Match) :
    matchLE a b → matchLE b c → matchLE a c := by
  simp only [matchLE, Bool.or_eq_true, Bool.and_eq_true, decide_eq_true_eq, beq_iff_eq]
  rintro (h1 | ⟨h1, s1⟩) (h2 | ⟨h2, s2⟩)
  · exact Or.inl (h1.trans h2)
  · exact Or.inl (h2 ▸ h1)
  · exact Or.inl (h1 ▸ h2)
  · exact Or.inr ⟨h1.trans h2, s2.trans s1⟩

/-! ### Inversion of the per-row processing -/

lemma processRow_eq_some {score : String → String → Nat} {query : String}
    {level : Nat} {version : String} {threshold : Nat}
    {gid0_filter : Option String} {row : Record} {m : Match}
    (h : processRow score query level version threshold gid0_filter row = some m) :
    m.query = query ∧ m.score = score query (getCol row (nameCol level)) ∧
      threshold ≤ m.score := by
  unfold processRow at h
  split at h
  · exact absurd h (by simp)
  · dsimp only at h
    split at h
    · rename_i hth
      cases h
      exact ⟨rfl, rfl, hth⟩
    · exact absurd h (by simp)


lemma mem_find_matches {score : String → String → Nat} {query : String}
    {df : Table} {level : Nat} {version : String} {threshold : Nat}
    {gid0_filter : Option String} {m : Match}
    (h : m ∈ find_matches score query df level version threshold gid0_filter) :
    ∃ row ∈ df.rows,
      processRow score query level version threshold gid0_filter row = some m := by
  unfold find_matches at h
  split at h
  · exact List.mem_filterMap.mp h
  · exact absurd h (List.not_mem_nil m)

lemma mem_accumulate {score : String → String → Nat} {entries : List Entry}
    {tables : List (String × Nat × Table)} {threshold : Nat} {m : Match}
    (h : m ∈ accumulate score entries tables threshold) :
    ∃ vt ∈ tables, ∃ e ∈ entries,
      m ∈ find_matches score e.query vt.2.2 vt.2.1 vt.1 threshold e.gid0 := by
  unfold accumulate at h
  obtain ⟨vt, hvt, h⟩ := List.mem_flatMap.mp h
  obtain ⟨e, he, h⟩ := List.mem_flatMap.mp h
  exact ⟨vt, hvt, e, he, h⟩

/-! ### Claim theorems -/

/-- C1: every MatchSet returned by the batch run is sorted primarily by
query text in ascending order (so all matches for one query text are
contiguous) and secondarily by score in descending order within each
query group: every earlier match has a strictly smaller query text, or
the same query text and a score no smaller than the later match's. -/
theorem run_sorted (score : String → String → Nat) (entries : List Entry)
    (tables : List (String × Nat × Table)) (threshold : Nat) :
    (run score entries tables threshold).Pairwise
      (fun a b => a.query < b.query ∨ (a.query = b.query ∧ b.score ≤ a.score)) := by
  have h := @List.sorted_mergeSort Match matchLE matchLE_trans matchLE_total
    (accumulate score entries tables threshold)
  refine h.imp (fun {a b} hab => ?_)
  simpa only [matchLE, Bool.or_eq_true, Bool.and_eq_true, decide_eq_true_eq,
    beq_iff_eq] using hab

/-- C2: the final sort of the batch run is stable: restricted to any class
of ties (equal query text and equal score), the sorted MatchSet lists
exactly the matches of that class in their accumulation order. -/
theorem run_stable (score : String → String → Nat) (entries : List Entry)
    (tables : List (String × Nat × Table)) (threshold : Nat) (q : String) (s : Nat) :
    (run score entries tables threshold).filter (fun m => m.query == q && m.score == s)
      = (accumulate score entries tables threshold).filter
          (fun m => m.query == q && m.score == s) := by
  set p : Match → Bool := fun m => m.query == q && m.score == s with hp
  set l := accumulate score entries tables threshold with hl
  have hpw : (l.filter p).Pairwise (fun a b => matchLE a b) := by
    apply List.pairwise_of_forall_mem_list
    intro a ha b hb
    have ha' := (List.mem_filter.mp ha).2
    have hb' := (List.mem_filter.mp hb).2
    simp only [hp, Bool.and_eq_true, beq_iff_eq] at ha' hb'
    simp only [matchLE, Bool.or_eq_true, Bool.and_eq_true, decide_eq_true_eq, beq_iff_eq]
    exact Or.inr ⟨ha'.1.trans hb'.1.symm, le_of_eq (hb'.2.trans ha'.2.symm)⟩
  have hsub : List.Sublist (l.filter p) (l.mergeSort matchLE) :=
    List.sublist_mergeSort matchLE_trans matchLE_total hpw (List.filter_sublist l)
  have hsub2 : List.Sublist ((l.filter p).filter p) ((l.mergeSort matchLE).filter p) :=
    hsub.filter p
  rw [List.filter_filter] at hsub2
  simp only [Bool.and_self] at hsub2
  have hlen : ((l.mergeSort matchLE).filter p).length = (l.filter p).length :=
    ((List.mergeSort_perm l matchLE).filter p).length_eq
  exact (hsub2.eq_of_length hlen.symm).symm

/-- C3: every match produced by `find_matches` carries a score equal to the
scorer's output on its matched name; under the spec's SimilarityScorer
contract (an integer in [0,100]; scores are naturals, so nonnegativity and
integrality are inherent), every emitted score is at most 100. -/
theorem find_matches_score_range (score : String → String → Nat)
    (hscore : ∀ q c, score q c ≤ 100) (query : String) (df : Table)
    (level : Nat) (version : String) (threshold : Nat)
    (gid0_filter : Option String) (m : Match)
    (hm : m ∈ find_matches score query df level version threshold gid0_filter) :
    m.score ≤ 100 := by
  obtain ⟨row, _, hrow⟩ := mem_find_matches hm
  rw [(processRow_eq_some hrow).2.1]
  exact hscore _ _

lemma processRow_none_of_scope {score : String → String → Nat} {query : String}
    {level : Nat} {version : String} {threshold : Nat} {s : String}
    {row : Record} (hs : s ≠ "") (hne : row.lookup "GID_0" ≠ some s) :
    processRow score query level version threshold (some s) row = none := by
  unfold processRow
  rw [if_pos]
  simp [truthy, hs, hne]

lemma filterMap_filter_of_none {α β : Type} {f : α → Option β} {p : α → Bool}
    (h : ∀ x, p x = false → f x = none) :
    ∀ l : List α, (l.filter p).filterMap f = l.filterMap f := by
  intro l
  induction l with
  | nil => rfl
  | cons a l ih =>
    cases hp : p a
    · simp [List.filter_cons, hp, List.filterMap_cons, h a hp, ih]
    · simp [List.filter_cons, hp, List.filterMap_cons, ih]

/-- C4: when a nonempty scope `s` is supplied, a record whose `GID_0` is
absent or different from `s` is skipped before scoring (its per-row
processing yields no match, for every scorer and threshold), so dropping
all such records from a table leaves `find_matches` unchanged; with no
scope, whether a record produces a match depends only on its score
meeting the threshold, regardless of `GID_0`. -/
theorem scope_exclusivity (score : String → String → Nat) (query : String)
    (level : Nat) (version : String) (threshold : Nat) (s : String)
    (hs : s ≠ "") :
    (∀ row : Record,
        (row.lookup "GID_0" = none ∨ ∀ v, row.lookup "GID_0" = some v → v ≠ s) →
        processRow score query level version threshold (some s) row = none) ∧
    (∀ df : Table,
        find_matches score query df level version threshold (some s) =
          find_matches score query
            ⟨df.cols, df.rows.filter (fun row => row.lookup "GID_0" == some s)⟩
            level version threshold (some s)) ∧
    (∀ row : Record,
        (processRow score query level version threshold none row).isSome =
          decide (threshold ≤ score query (getCol row (nameCol level)))) := by
  refine ⟨fun row hr => ?_, fun df => ?_, fun row => ?_⟩
  · refine processRow_none_of_scope hs ?_
    rcases hr with h | h
    · simp [h]
    · intro hc
      exact h s hc rfl
  · unfold find_matches
    split
    · refine (filterMap_filter_of_none (fun row hrow => ?_) df.rows).symm
      refine processRow_none_of_scope hs ?_
      simpa using hrow
    · rfl
  · unfold processRow
    rw [if_neg (by simp [truthy])]
    dsimp only
    split
    · rename_i hth
      simp [hth]
    · rename_i hth
      simp [hth]

/-- C5: threshold monotonicity: raising the threshold can only shrink the
set of matches returned by `find_matches`; every match returned at
threshold `t2` is also returned at any threshold `t1 ≤ t2`. -/
theorem threshold_monotone (score : String → String → Nat) (query : String)
    (df : Table) (level : Nat) (version : String) (t1 t2 : Nat)
    (gid0_filter : Option String) (h12 : t1 ≤ t2) (m : Match)
    (hm : m ∈ find_matches score query df level version t2 gid0_filter) :
    m ∈ find_matches score query df level version t1 gid0_filter := by
  unfold find_matches at hm ⊢
  split at hm
  · rename_i hcols
    rw [if_pos hcols]
    obtain ⟨row, hrow, hpr⟩ := List.mem_filterMap.mp hm
    refine List.mem_filterMap.mpr ⟨row, hrow, ?_⟩
    unfold processRow at hpr ⊢
    split at hpr
    · exact absurd hpr (by simp)
    · rename_i hfilt
      rw [if_neg hfilt]
      dsimp only at hpr ⊢
      split at hpr
      · rename_i hth
        rw [if_pos (le_trans h12 hth)]
        exact hpr
      · exact absurd hpr (by simp)
  · exact absurd hm (List.not_mem_nil m)

lemma exactScorer_le (q c : String) : exactScorer q c ≤ 100 := by
  unfold exactScorer
  split <;> omega

/-- C6: a table lacking the `NAME_{level}` or the `GID_{level}` column
contributes no matches: `find_matches` returns the empty list (and, being
a total function, raises nothing). -/
theorem column_absence (score : String → String → Nat) (query : String)
    (df : Table) (level : Nat) (version : String) (threshold : Nat)
    (gid0_filter : Option String)
    (h : nameCol level ∉ df.cols ∨ gidCol level ∉ df.cols) :
    find_matches score query df level version threshold gid0_filter = [] := by
  unfold find_matches
  rw [if_neg]
  rintro ⟨h1, h2⟩
  rcases h with h | h <;> contradiction

/-- C7: every match in the MatchSet returned by the batch run has a score
at least the configured threshold. -/
theorem run_score_ge_threshold (score : String → String → Nat)
    (entries : List Entry) (tables : List (String × Nat × Table))
    (threshold : Nat) (m : Match)
    (hm : m ∈ run score entries tables threshold) :
    threshold ≤ m.score := by
  unfold run at hm
  rw [List.mem_mergeSort] at hm
  obtain ⟨vt, _, e, _, hfm⟩ := mem_accumulate hm
  obtain ⟨row, _, hrow⟩ := mem_find_matches hfm
  exact (processRow_eq_some hrow).2.2

/-- C8: the batch run is a pure function of its inputs: two invocations
of `run` with identical scorer, entries, tables and threshold yield the
same MatchSet (the embedding is stateless, as is the source loop, whose
only ambient state — the cached table dictionary — is an input here). -/
theorem run_deterministic (score : String → String → Nat) (entries : List Entry)
    (tables : List (String × Nat × Table)) (threshold : Nat) :
    run score entries tables threshold = run score entries tables threshold := rfl

/-- C9: the batch run on an empty queries sequence returns the empty
MatchSet, and likewise when no candidate actually present in the supplied
tables reaches the threshold against any query of the batch, the result
is the empty MatchSet; neither case is an error. -/
theorem run_empty_cases (score : String → String → Nat) (entries : List Entry)
    (tables : List (String × Nat × Table)) (threshold : Nat) :
    run score [] tables threshold = [] ∧
    ((∀ vt ∈ tables, ∀ e ∈ entries, ∀ row ∈ vt.2.2.rows,
        score e.query (getCol row (nameCol vt.2.1)) < threshold) →
      run score entries tables threshold = []) := by
  constructor
  · have h : accumulate score [] tables threshold = [] := by
      unfold accumulate
      exact List.flatMap_eq_nil_iff.mpr fun _ _ => rfl
    unfold run
    rw [h, List.mergeSort_nil]
  · intro hlow
    have h : accumulate score entries tables threshold = [] := by
      unfold accumulate
      refine List.flatMap_eq_nil_iff.mpr fun vt hvt => ?_
      refine List.flatMap_eq_nil_iff.mpr fun e he => ?_
      unfold find_matches
      split
      · refine List.filterMap_eq_nil_iff.mpr fun row hrow => ?_
        unfold processRow
        split
        · rfl
        · dsimp only
          rw [if_neg (Nat.not_le.mpr (hlow vt hvt e he row hrow))]
      · rfl
    unfold run
    rw [h, List.mergeSort_nil]

/-- C10: passing the empty string as the scope behaves exactly like
passing no scope at all: the empty-string filter is falsy in the source
(`if gid0_filter:`), so no record is filtered out. -/
theorem empty_scope_eq_no_scope (score : String → String → Nat) (query : String)
    (df : Table) (level : Nat) (version : String) (threshold : Nat) :
    find_matches score query df level version threshold (some "") =
      find_matches score query df level version threshold none := by
  have hpr : processRow score query level version threshold (some "") =
      processRow score query level version threshold none := by
    funext row
    unfold processRow
    simp [truthy]
  unfold find_matches
  rw [hpr]

/-! ### Witnesses -/

theorem find_matches_score_range_witness : mexicoMatch.score ≤ 100 :=
  find_matches_score_range exactScorer exactScorer_le "Mexico" exTable 0 "41" 60
    none mexicoMatch (by decide)

theorem scope_exclusivity_witness :
    processRow exactScorer "Mexico" 0 "41" 0 (some "USA")
      [("NAME_0", "Mexico")] = none :=
  (scope_exclusivity exactScorer "Mexico" 0 "41" 0 "USA" (by decide)).1
    [("NAME_0", "Mexico")] (Or.inl (by decide))

theorem threshold_monotone_witness :
    mexicoMatch ∈ find_matches exactScorer "Mexico" exTable 0 "41" 60 none :=
  threshold_monotone exactScorer "Mexico" exTable 0 "41" 60 100 none (by decide)
    mexicoMatch (by decide)

theorem column_absence_witness :
    find_matches exactScorer "Mexico" ⟨["FOO"], [[("FOO", "x")]]⟩ 0 "41" 0 none = [] :=
  column_absence exactScorer "Mexico" ⟨["FOO"], [[("FOO", "x")]]⟩ 0 "41" 0 none
    (Or.inl (by decide))

theorem run_score_ge_threshold_witness : 60 ≤ mexicoMatch.score :=
  run_score_ge_threshold exactScorer [⟨"Mexico", none⟩] [("41", 0, exTable)] 60
    mexicoMatch (by unfold run; exact List.mem_mergeSort.mpr (by decide))

theorem run_empty_cases_witness :
    run exactScorer [⟨"Atlantis", none⟩] [("41", 0, exTable)] 80 = [] :=
  (run_empty_cases exactScorer [⟨"Atlantis", none⟩] [("41", 0, exTable)] 80).2
    (by decide)

end GadmSearch
